import Mathlib

/-!
# Verification of the Teleport resource-cache accessors

Shallow embedding of the per-kind cache accessors (`lib/cache/role.go`,
`lib/cache/windows_desktop.go`, `lib/cache/database.go`) and the multi-kind
`ListResources` dispatcher, together with models of the collaborators that
the repository snapshot does not include under `src/` (the generic `store`,
`acquireReadGuard`, `backend.GetPaginationKey`, `defaults.DefaultChunkSize`,
`services.MatchResourceByFilters`); those are modelled from the
specification and are marked `Modelled from the spec:` in their doc
comments.
-/

namespace TeleportCache

/-- Error taxonomy of the `trace` package as observed by the cache accessors.
Each constructor carries the formatted message; `trace.Wrap` preserves the
error identity, so wrapping is modelled as the identity on the value. -/
inductive Err : Type where
  | notFound (msg : String)
  | badParameter (msg : String)
  | notImplemented (msg : String)
  | generic (msg : String)
  deriving DecidableEq, Repr

/-- `trace.IsNotFound`. -/
def Err.isNotFound : Err → Bool
  | .notFound _ => true
  | _ => false

/-- Resource kinds that appear in the cache code under `src/`
(`types.Kind*` string constants; the constants are pairwise distinct strings
in the `types` package, modelled as distinct constructors, with `other` for
any remaining kind string). -/
inductive Kind : Type where
  | role
  | database
  | databaseServer
  | databaseService
  | app
  | appServer
  | node
  | kubeServer
  | kubeCluster
  | windowsDesktop
  | windowsDesktopService
  | userGroup
  | identityCenterAccount
  | identityCenterAccountAssignment
  | other (s : String)
  deriving DecidableEq, Repr

/-- Printable name of a kind, used in `trace.NotImplemented("%s not implemented
at ListResources", ...)` messages. Modelled from the spec: the `types.Kind*`
string constants are not under `src/`; the exact strings are irrelevant to the
claims, only distinctness of kinds is used. -/
def Kind.name : Kind → String
  | .role => "role"
  | .database => "db"
  | .databaseServer => "db_server"
  | .databaseService => "db_service"
  | .app => "app"
  | .appServer => "app_server"
  | .node => "node"
  | .kubeServer => "kube_server"
  | .kubeCluster => "kube_cluster"
  | .windowsDesktop => "windows_desktop"
  | .windowsDesktopService => "windows_desktop_service"
  | .userGroup => "user_group"
  | .identityCenterAccount => "aws_ic_account"
  | .identityCenterAccountAssignment => "aws_ic_account_assignment"
  | .other s => s

/-- Modelled from the spec: `defaults.DefaultChunkSize` (the system default
page size) is not under `src/`; its value in the repository is 1000. The
claims only use that it is positive. -/
def defaultChunkSize : Nat := 1000

theorem defaultChunkSize_pos : 0 < defaultChunkSize := by decide

/-! ## String keys

Go compares strings bytewise; we model the key order as the lexicographic
order on the character list (`String.data`), which agrees with Go's order on
the ASCII keys involved. -/

/-- Go `a < b` on strings. -/
def strLt (a b : String) : Prop := a.data < b.data

/-- Go `a <= b` on strings. -/
def strLe (a b : String) : Prop := a.data ≤ b.data

instance : DecidableRel strLt := fun a b => inferInstanceAs (Decidable (a.data < b.data))
instance : DecidableRel strLe := fun a b => inferInstanceAs (Decidable (a.data ≤ b.data))

theorem strLt_trans {a b c : String} (h1 : strLt a b) (h2 : strLt b c) : strLt a c :=
  lt_trans h1 h2

theorem strLe_trans {a b c : String} (h1 : strLe a b) (h2 : strLe b c) : strLe a c :=
  le_trans h1 h2

theorem strLe_of_strLt {a b : String} (h : strLt a b) : strLe a b := le_of_lt h

theorem strLe_refl (a : String) : strLe a a := le_refl _

theorem strLe_of_not_strLt {a b : String} (h : ¬ strLt a b) : strLe b a := not_lt.mp h

theorem not_strLe_of_strLt {a b : String} (h : strLt a b) : ¬ strLe b a := not_le.mpr h

theorem strLt_of_strLe_of_strLt {a b c : String} (h1 : strLe a b) (h2 : strLt b c) :
    strLt a c := lt_of_le_of_lt h1 h2

/-- No string is lexicographically below the empty string. -/
theorem not_strLt_empty (s : String) : ¬ strLt s "" := by
  intro h
  exact List.Lex.not_nil_right (· < ·) s.data h

theorem strLt_ne {a b : String} (h : strLt a b) : a ≠ b := by
  intro he
  subst he
  exact lt_irrefl _ h

/-! ## The generic store

Modelled from the spec: the generic `store` type (`newStore`,
`store.get`, `store.len`, `store.resources`) is not under `src/`.  Per the
spec (§3, §4.1): a `store` is an ordered, indexed mapping from string keys to
the latest value; `get(index, key)` fails with `NotFound` if absent;
`resources(index, start, end)` yields the items in ascending lexicographic
order of the index key, an empty `start` meaning "from the beginning".  The
start bound is inclusive (the first key `≥ start`): this is forced by the
spec's pagination invariant ("resuming with that cursor yields the next item
strictly after the last one returned, with no gap and no duplicate")
together with the `src/`-visible cursor computation, which takes the cursor
from the first item that did not fit in the page. -/

/-- A per-collection store: the `"name"` index key function supplied to
`newStore` together with the current contents in ascending key order. -/
structure Store (τ : Type) where
  keyOf : τ → String
  items : List τ

/-- Well-formedness of a store: contents strictly ascending in the index key
(the store is a map keyed by the index key, so keys are unique). -/
def Store.wf {τ : Type} (s : Store τ) : Prop :=
  s.items.Pairwise (fun a b => strLt (s.keyOf a) (s.keyOf b))

/-- The items of `l` whose `keyOf`-key is `≥ start`, in list order; an empty
`start` means from the beginning. -/
def fromKey {τ : Type} (keyOf : τ → String) (start : String) (l : List τ) : List τ :=
  if start = "" then l else l.filter (fun r => decide (strLe start (keyOf r)))

/-- `store.resources("name", start, "")`: the items whose key is `≥ start`,
in store (ascending key) order; empty `start` means from the beginning. -/
def Store.resourcesFrom {τ : Type} (s : Store τ) (start : String) : List τ :=
  fromKey s.keyOf start s.items

/-- `store.get("name", key)`: lookup by index key, `NotFound` if absent. -/
def Store.get {τ : Type} (s : Store τ) (key : String) : Except Err τ :=
  match s.items.find? (fun r => s.keyOf r == key) with
  | some r => .ok r
  | none => .error (.notFound "key is not found")

/-- `store.len()`. -/
def Store.size {τ : Type} (s : Store τ) : Nat := s.items.length

/-! ## The shared page-scan loop

The paginated list loops of `ListRoles`, `ListWindowsDesktopServices` and
`buildListResourcesResponse` in `src/` share one loop shape over
`store.resources("name", req.StartKey, "")` (`ListWindowsDesktops` differs:
its page-full `break` sits inside a `switch`, see `wdListLoop`):

```
for r := range resources {
    if !emit(r) { continue }                   // type cast / filters
    if len(page) == pageSize {
        nextKey = cursorKey(r)                 // first item that did not fit
        break
    }
    page = append(page, clone(r))
}
```

`scanPage keyOf emit clone limit l` is that loop with the page budget
`limit` counted down; it returns the emitted page (clones applied) and the
`NextKey` cursor (`""` when the sequence was exhausted first). -/
def scanPage {τ σ : Type} (keyOf : τ → String) (emit : τ → Bool) (clone : τ → σ) :
    Nat → List τ → List σ × String
  | _, [] => ([], "")
  | limit, r :: rest =>
    if emit r then
      match limit with
      | 0 => ([], keyOf r)
      | l + 1 =>
        (clone r :: (scanPage keyOf emit clone l rest).1,
         (scanPage keyOf emit clone l rest).2)
    else scanPage keyOf emit clone limit rest

/-- The repeated-pagination protocol: call `page` starting from `start`,
follow `NextKey` until it is empty, concatenating the returned pages.
`fuel` bounds the number of calls (any `fuel` larger than the number of
pages gives the full run). -/
def collectPages {σ : Type} (page : String → List σ × String) :
    Nat → String → List σ
  | 0, _ => []
  | fuel + 1, start =>
    if (page start).2 = "" then (page start).1
    else (page start).1 ++ collectPages page fuel (page start).2

/-! ## Pagination theory

Facts about `scanPage`, `fromKey` and `collectPages` used to settle the
pagination claims. -/

section Pagination

variable {τ σ : Type} (keyOf : τ → String) (emit : τ → Bool) (clone : τ → σ)

/-- The cursor produced when scanning a matching sequence `M` with page
budget `limit`: the key of the first item beyond the page, or `""` when the
sequence is exhausted within the page. -/
def pageNextKey (limit : Nat) (M : List τ) : String :=
  match M.drop limit with
  | [] => ""
  | x :: _ => keyOf x

theorem scanPage_fst (limit : Nat) (l : List τ) :
    (scanPage keyOf emit clone limit l).1 = ((l.filter emit).take limit).map clone := by
  induction l generalizing limit with
  | nil => simp [scanPage]
  | cons r rest ih =>
    by_cases he : emit r
    · cases limit with
      | zero => simp [scanPage, he]
      | succ l => simp [scanPage, he, ih]
    · simp [scanPage, he, ih]

theorem scanPage_snd (limit : Nat) (l : List τ) :
    (scanPage keyOf emit clone limit l).2 = pageNextKey keyOf limit (l.filter emit) := by
  induction l generalizing limit with
  | nil => simp [scanPage, pageNextKey]
  | cons r rest ih =>
    by_cases he : emit r
    · cases limit with
      | zero => simp [scanPage, he, pageNextKey]
      | succ l => simp [scanPage, he, pageNextKey, ih l]
    · simp [scanPage, he, pageNextKey, ih limit]

theorem scanPage_length_le (limit : Nat) (l : List τ) :
    (scanPage keyOf emit clone limit l).1.length ≤ limit := by
  rw [scanPage_fst]
  simp [List.length_take_le]

theorem fromKey_empty (l : List τ) : fromKey keyOf "" l = l := rfl

theorem fromKey_ne {start : String} (h : start ≠ "") (l : List τ) :
    fromKey keyOf start l = l.filter (fun r => decide (strLe start (keyOf r))) := by
  simp [fromKey, h]

theorem fromKey_sublist (start : String) (l : List τ) :
    (fromKey keyOf start l).Sublist l := by
  by_cases h : start = ""
  · subst h; exact List.Sublist.refl l
  · rw [fromKey_ne keyOf h]; exact List.filter_sublist l

theorem mem_fromKey_le {start : String} (h : start ≠ "") {l : List τ} {r : τ}
    (hr : r ∈ fromKey keyOf start l) : strLe start (keyOf r) := by
  rw [fromKey_ne keyOf h] at hr
  simpa using (List.of_mem_filter hr)

/-- In a strictly key-sorted list `M`, the suffix from position `limit`
(whose head is `x`) is exactly the set of items whose key is `≥ keyOf x`. -/
theorem filter_ge_eq_drop (M : List τ)
    (MP : M.Pairwise (fun a b => strLt (keyOf a) (keyOf b))) :
    ∀ (limit : Nat) (x : τ) (xs : List τ), M.drop limit = x :: xs →
      M.filter (fun r => decide (strLe (keyOf x) (keyOf r))) = M.drop limit := by
  induction M with
  | nil => intro limit x xs h; simp at h
  | cons m0 M' ih =>
    intro limit x xs h
    cases limit with
    | zero =>
      simp only [List.drop_zero] at h
      obtain ⟨rfl, rfl⟩ : m0 = x ∧ M' = xs := by
        constructor <;> simp [List.cons.injEq] at h <;> tauto
      rw [List.drop_zero]
      apply List.filter_eq_self.mpr
      intro a ha
      rcases List.mem_cons.mp ha with rfl | ha'
      · simpa using strLe_refl (keyOf a)
      · exact decide_eq_true (strLe_of_strLt (List.rel_of_pairwise_cons MP ha'))
    | succ l =>
      rw [List.drop_succ_cons] at h
      have hxM' : x ∈ M' := List.mem_of_mem_drop (h ▸ List.mem_cons_self x xs)
      have hlt : strLt (keyOf m0) (keyOf x) := List.rel_of_pairwise_cons MP hxM'
      have hskip : ¬ strLe (keyOf x) (keyOf m0) := not_strLe_of_strLt hlt
      rw [List.drop_succ_cons]
      rw [List.filter_cons_of_neg (by simpa using hskip)]
      exact ih MP.of_cons l x xs h

/-- Resuming at the cursor key reproduces exactly the unreturned suffix of
the matching sequence (the heart of the no-gap/no-duplicate invariant). -/
theorem fromKey_filter_resume (items : List τ)
    (SS : items.Pairwise (fun a b => strLt (keyOf a) (keyOf b)))
    (start : String) (limit : Nat) (x : τ) (xs : List τ)
    (hne : keyOf x ≠ "")
    (hx : ((fromKey keyOf start items).filter emit).drop limit = x :: xs) :
    (fromKey keyOf (keyOf x) items).filter emit =
      ((fromKey keyOf start items).filter emit).drop limit := by
  set M := (fromKey keyOf start items).filter emit with hM
  have hsubM : M.Sublist items :=
    (List.filter_sublist _).trans (fromKey_sublist keyOf start items)
  have MP : M.Pairwise (fun a b => strLt (keyOf a) (keyOf b)) := SS.sublist hsubM
  have hxM : x ∈ M := List.mem_of_mem_drop (hx ▸ List.mem_cons_self x xs)
  -- Left side as a filter over M.
  have hleft : (fromKey keyOf (keyOf x) items).filter emit
      = M.filter (fun r => decide (strLe (keyOf x) (keyOf r))) := by
    rw [fromKey_ne keyOf hne, List.filter_filter, hM]
    by_cases hs : start = ""
    · subst hs
      rw [fromKey_empty, List.filter_filter]
      exact List.filter_congr (fun a _ => by rw [Bool.and_comm])
    · have hstart : strLe start (keyOf x) :=
        mem_fromKey_le keyOf hs (List.mem_of_mem_filter hxM)
      rw [fromKey_ne keyOf hs, List.filter_filter, List.filter_filter]
      apply List.filter_congr
      intro a _
      by_cases hq : strLe (keyOf x) (keyOf a)
      · have : strLe start (keyOf a) := strLe_trans hstart hq
        simp [hq, this, Bool.and_comm]
      · simp [hq]
  rw [hleft]
  exact filter_ge_eq_drop keyOf M MP limit x xs hx

/-- Pagination completeness for the shared scan loop: starting from the
beginning and following `NextKey` until it is empty returns exactly the
matching items, each once, in store order. -/
theorem collectPages_complete (items : List τ)
    (SS : items.Pairwise (fun a b => strLt (keyOf a) (keyOf b)))
    (limit : Nat) (hl : 1 ≤ limit) :
    ∀ (fuel : Nat) (start : String),
      ((fromKey keyOf start items).filter emit).length < fuel →
      collectPages (fun s => scanPage keyOf emit clone limit (fromKey keyOf s items))
          fuel start
        = ((fromKey keyOf start items).filter emit).map clone := by
  intro fuel
  induction fuel with
  | zero => intro start h; omega
  | succ fuel ih =>
    intro start hfuel
    set M := (fromKey keyOf start items).filter emit with hM
    have hsubM : M.Sublist items :=
      (List.filter_sublist _).trans (fromKey_sublist keyOf start items)
    have MP : M.Pairwise (fun a b => strLt (keyOf a) (keyOf b)) := SS.sublist hsubM
    rw [collectPages]
    rw [scanPage_snd, scanPage_fst, ← hM]
    cases hdrop : M.drop limit with
    | nil =>
      have hlen : M.length ≤ limit := List.drop_eq_nil_iff.mp hdrop
      rw [pageNextKey, hdrop]
      simp [List.take_of_length_le hlen]
    | cons x xs =>
      have hlim : limit < M.length := by
        by_contra hcon
        rw [List.drop_eq_nil_iff.mpr (by omega)] at hdrop
        exact List.noConfusion hdrop
      -- The cursor key is nonempty: some element precedes x in the strict order.
      have hne : keyOf x ≠ "" := by
        intro hcon
        cases hMc : M with
        | nil => rw [hMc] at hlim; simp at hlim
        | cons m0 M' =>
          rw [hMc] at MP
          have hxM' : x ∈ M' := by
            obtain ⟨l, hll⟩ : ∃ l, limit = l + 1 := ⟨limit - 1, by omega⟩
            rw [hMc, hll, List.drop_succ_cons] at hdrop
            exact List.mem_of_mem_drop (hdrop ▸ List.mem_cons_self x xs)
          have hm0x : strLt (keyOf m0) (keyOf x) :=
            List.rel_of_pairwise_cons MP hxM'
          rw [hcon] at hm0x
          exact not_strLt_empty (keyOf m0) hm0x
      rw [pageNextKey, hdrop]
      rw [if_neg hne]
      have hstep := fromKey_filter_resume keyOf emit items SS start limit x xs hne
        (by rw [← hM]; exact hdrop)
      rw [← hM] at hstep
      have hdlen : ((fromKey keyOf (keyOf x) items).filter emit).length < fuel := by
        rw [hstep, List.length_drop]
        omega
      rw [ih (keyOf x) hdlen, hstep, ← List.map_append, List.take_append_drop]

end Pagination

/-! ## Resource value models

Value-level models of the resource types used by the cache files under
`src/`.  Only the fields the cache code reads are modelled: the index name,
the host ID for per-host kinds, and (for tombstones) kind/version headers.
`Clone`/`Copy` are the identity on values; the aliasing content of the
deep-copy contract is modelled separately (see the clone-semantics section). -/

/-- `*types.RoleV6`. -/
structure RoleV6 where
  name : String
  deriving DecidableEq, Repr

/-- `types.Role` (an interface): either a `*RoleV6` or some other
implementation of the interface. -/
inductive Role : Type where
  | v6 (r : RoleV6)
  | legacy (name : String)
  deriving DecidableEq, Repr

def Role.getName : Role → String
  | .v6 r => r.name
  | .legacy n => n

/-- `Role.Clone()` at the value level. -/
def Role.clone (r : Role) : Role := r

structure WindowsDesktopService where
  name : String
  deriving DecidableEq, Repr

/-- `WindowsDesktopService.Clone()` at the value level. -/
def WindowsDesktopService.clone (s : WindowsDesktopService) : WindowsDesktopService := s

structure WindowsDesktop where
  hostID : String
  name : String
  deriving DecidableEq, Repr

/-- `WindowsDesktop.Copy()` at the value level. -/
def WindowsDesktop.copy (d : WindowsDesktop) : WindowsDesktop := d

structure Database where
  name : String
  deriving DecidableEq, Repr

structure DatabaseServer where
  hostID : String
  name : String
  deriving DecidableEq, Repr

structure DatabaseService where
  name : String
  deriving DecidableEq, Repr

structure AppServer where
  hostID : String
  name : String
  deriving DecidableEq, Repr

/-- `types.Server` (a node). -/
structure Server where
  name : String
  deriving DecidableEq, Repr

structure KubeServer where
  hostID : String
  name : String
  deriving DecidableEq, Repr

/-- `types.ResourceWithLabels` as it flows through the multi-kind
`ListResources` dispatcher: one of the six kinds with special-cased wiring. -/
inductive CacheResource : Type where
  | dbServer (d : DatabaseServer)
  | dbService (d : DatabaseService)
  | appServer (a : AppServer)
  | node (s : Server)
  | windowsDesktopService (w : WindowsDesktopService)
  | kubeServer (k : KubeServer)
  deriving DecidableEq, Repr

/-! Modelled from the spec: `backend.GetPaginationKey` is not under `src/`.
The spec (§4.5) describes the cursor as the resource's name, or the
composite key for kinds stored under a composite index, such that resuming
with the cursor against the store's lexicographic index order has "no gap
and no duplicate"; in this repository only the windows desktop store uses a
composite (`hostID/name`) index, so the pagination key is the name for every
other kind and `hostID/name` for windows desktops. -/

def WindowsDesktopService.paginationKey (s : WindowsDesktopService) : String := s.name

def WindowsDesktop.paginationKey (d : WindowsDesktop) : String :=
  d.hostID ++ "/" ++ d.name

def DatabaseServer.paginationKey (d : DatabaseServer) : String := d.name

def DatabaseService.paginationKey (d : DatabaseService) : String := d.name

def AppServer.paginationKey (a : AppServer) : String := a.name

def Server.paginationKey (s : Server) : String := s.name

def KubeServer.paginationKey (k : KubeServer) : String := k.name

/-! ## Filters

Modelled from the spec: `services.MatchResourceByFilters` and
`services.NewResourceExpression` are not under `src/`.  Per the spec (§4.5),
a list request's filter is a label match, a search-keyword match and a
predicate-expression match; a malformed predicate expression surfaces
`BadParameter`.  The label/search part is modelled as an abstract decidable
predicate carried by the request, and the predicate expression as either
empty, a predicate, or malformed. -/

/-- The `PredicateExpression` field of a list request together with the
outcome of `services.NewResourceExpression` on it. -/
inductive PredExpr (τ : Type) : Type where
  | empty
  | valid (f : τ → Bool)
  | malformed (msg : String)

/-- `services.NewResourceExpression`, applied only when the expression is
nonempty (`req.PredicateExpression != ""`). -/
def parsePredExpr {τ : Type} : PredExpr τ → Except Err (Option (τ → Bool))
  | .empty => .ok none
  | .valid f => .ok (some f)
  | .malformed m => .error (.badParameter m)

/-- `services.MatchResourceFilter` after predicate parsing: the label and
search-keyword match plus the parsed predicate expression. -/
structure MatchResourceFilter (τ : Type) : Type where
  base : τ → Bool
  pred : Option (τ → Bool)

/-- `services.MatchResourceByFilters` (modelled as total; its error return
only concerns malformed expressions, which are rejected before the loop). -/
def matchResourceByFilters {τ : Type} (f : MatchResourceFilter τ) (r : τ) : Bool :=
  f.base r && (match f.pred with | none => true | some p => p r)

/-! ## Requests and responses -/

/-- `proto.ListRolesRequest`: `Filter` is `nil` or a `RoleFilter`, whose
`Match` is modelled as a predicate. -/
structure ListRolesRequest where
  limit : Int
  startKey : String
  filter : Option (RoleV6 → Bool)

structure ListRolesResponse where
  roles : List RoleV6
  nextKey : String
  deriving DecidableEq, Repr

/-- `types.ListWindowsDesktopServicesRequest`: `labelsSearch` models the
`Labels`/`SearchKeywords` fields' combined match. -/
structure ListWindowsDesktopServicesRequest where
  limit : Int
  startKey : String
  labelsSearch : WindowsDesktopService → Bool
  predicateExpression : PredExpr WindowsDesktopService

structure ListWindowsDesktopServicesResponse where
  desktopServices : List WindowsDesktopService
  nextKey : String
  deriving DecidableEq, Repr

/-- `types.ListWindowsDesktopsRequest`: `desktopFilter` models the embedded
`WindowsDesktopFilter.Match`. -/
structure ListWindowsDesktopsRequest where
  limit : Int
  startKey : String
  desktopFilter : WindowsDesktop → Bool
  labelsSearch : WindowsDesktop → Bool
  predicateExpression : PredExpr WindowsDesktop

structure ListWindowsDesktopsResponse where
  desktops : List WindowsDesktop
  nextKey : String
  deriving DecidableEq, Repr

/-- `proto.ListResourcesRequest` (the fields the dispatcher reads). -/
structure ListResourcesRequest where
  resourceType : Kind
  limit : Int
  startKey : String
  labelsSearch : CacheResource → Bool
  predicateExpression : PredExpr CacheResource

structure ListResourcesResponse where
  resources : List CacheResource
  nextKey : String
  deriving DecidableEq, Repr

/-! ## Backend and cache state -/

/-- The authoritative backend as observed through the accessors' fallback
calls (`c.Config.Access`, `c.Config.Presence`, `c.Config.WindowsDesktops`,
`c.Config.Databases`): an abstract collaborator whose responses are
arbitrary fixed values/functions of the request. -/
structure Backend where
  getRoles : Except Err (List Role)
  listRoles : ListRolesRequest → Except Err ListRolesResponse
  getRole : String → Except Err Role
  getWindowsDesktopService : String → Except Err WindowsDesktopService
  listWindowsDesktopServices :
    ListWindowsDesktopServicesRequest → Except Err ListWindowsDesktopServicesResponse
  listWindowsDesktops : ListWindowsDesktopsRequest → Except Err ListWindowsDesktopsResponse
  getDatabase : String → Except Err Database
  listResources : ListResourcesRequest → Except Err ListResourcesResponse

/-- The cache: coordinator state (`ok`, `confirmedKinds`, `closed` — the
spec's §3 coordinator fields), one store per collection appearing in the
claims, the backend, and the TTL node cache consulted by
`listResourcesFallback` for `KindNode` (`getNodesWithTTLCache` is not under
`src/`; modelled as an uninterpreted component holding its current result). -/
structure Cache where
  ok : Bool
  confirmedKinds : List Kind
  closed : Bool
  roles : Store Role
  windowsDesktopServices : Store WindowsDesktopService
  windowsDesktops : Store WindowsDesktop
  dbs : Store Database
  dbServers : Store DatabaseServer
  dbServices : Store DatabaseService
  appServers : Store AppServer
  nodes : Store Server
  kubeServers : Store KubeServer
  backend : Backend
  ttlNodes : Except Err (List Server)

/-- Modelled from the spec: `acquireReadGuard` is not under `src/`.  Per the
spec (§4.3, §4.4) any operation after close fails fast with a "cache is
closed" error, and otherwise a guard is returned whose `ReadCache()` reports
whether the coordinator is `ok` and the collection's kind is confirmed. -/
def acquireReadGuard (c : Cache) : Except Err Unit :=
  if c.closed then .error (.generic "cache is closed") else .ok ()

/-- `ReadGuard.ReadCache()` for a collection of the given kind. -/
def Cache.readCache (c : Cache) (k : Kind) : Bool :=
  c.ok && c.confirmedKinds.contains k

/-! ## Role accessors (`src/lib/cache/role.go`) -/

/-- The page-size clamp shared by the cache-served branches of `ListRoles`,
`ListWindowsDesktopServices` and `ListWindowsDesktops`:
`if pageSize <= 0 || pageSize > defaults.DefaultChunkSize { pageSize = defaults.DefaultChunkSize }`. -/
def adjustedPageSize (limit : Int) : Nat :=
  if limit ≤ 0 ∨ limit > (defaultChunkSize : Int) then defaultChunkSize else limit.toNat

/-- `Cache.GetRoles`. -/
def Cache.getRoles (c : Cache) : Except Err (List Role) :=
  match acquireReadGuard c with
  | .error e => .error e
  | .ok _ =>
    if !c.readCache .role then c.backend.getRoles
    else .ok ((c.roles.resourcesFrom "").map Role.clone)

/-- The `for r := range rg.store.resources("name", req.StartKey, "")` loop of
`Cache.ListRoles`: skip non-`*RoleV6` values, skip filter mismatches, stop
with `NextKey = r.GetName()` once the page is full. -/
def roleListLoop (filter : Option (RoleV6 → Bool)) :
    Nat → List Role → List RoleV6 × String
  | _, [] => ([], "")
  | pageSize, r :: rest =>
    match r with
    | .legacy _ => roleListLoop filter pageSize rest
    | .v6 rv6 =>
      if (match filter with | some f => !f rv6 | none => false) then
        roleListLoop filter pageSize rest
      else
        match pageSize with
        | 0 => ([], rv6.name)
        | l + 1 =>
          (rv6 :: (roleListLoop filter l rest).1, (roleListLoop filter l rest).2)

/-- `Cache.ListRoles`. -/
def Cache.listRoles (c : Cache) (req : ListRolesRequest) : Except Err ListRolesResponse :=
  match acquireReadGuard c with
  | .error e => .error e
  | .ok _ =>
    if !c.readCache .role then c.backend.listRoles req
    else
      let pageSize := adjustedPageSize req.limit
      let pr := roleListLoop req.filter pageSize (c.roles.resourcesFrom req.startKey)
      .ok { roles := pr.1, nextKey := pr.2 }

/-- `Cache.GetRole`: on a cache miss with a `NotFound` error, fall through to
the backend; if the backend succeeds return its role, otherwise surface the
store's error. -/
def Cache.getRole (c : Cache) (name : String) : Except Err Role :=
  match acquireReadGuard c with
  | .error e => .error e
  | .ok _ =>
    if !c.readCache .role then c.backend.getRole name
    else
      match c.roles.get name with
      | .ok r => .ok r.clone
      | .error e =>
        if e.isNotFound then
          match c.backend.getRole name with
          | .ok role => .ok role
          | .error _ => .error e
        else .error e

/-! ## Windows desktop accessors (`src/lib/cache/windows_desktop.go`) -/

/-- `Cache.GetWindowsDesktopService`: a cache miss is surfaced directly
(no backend fall-through). -/
def Cache.getWindowsDesktopService (c : Cache) (name : String) :
    Except Err WindowsDesktopService :=
  match acquireReadGuard c with
  | .error e => .error e
  | .ok _ =>
    if c.readCache .windowsDesktopService then
      match c.windowsDesktopServices.get name with
      | .ok svc => .ok svc.clone
      | .error e => .error e
    else c.backend.getWindowsDesktopService name

/-- The scan loop of `Cache.ListWindowsDesktopServices`: note that the
constructed `MatchResourceFilter` is never consulted by the loop in `src/`,
so every store item is emitted. -/
def wdsListLoop : Nat → List WindowsDesktopService → List WindowsDesktopService × String
  | _, [] => ([], "")
  | pageSize, svc :: rest =>
    match pageSize with
    | 0 => ([], svc.paginationKey)
    | l + 1 => (svc.clone :: (wdsListLoop l rest).1, (wdsListLoop l rest).2)

/-- `Cache.ListWindowsDesktopServices`. -/
def Cache.listWindowsDesktopServices (c : Cache)
    (req : ListWindowsDesktopServicesRequest) :
    Except Err ListWindowsDesktopServicesResponse :=
  match acquireReadGuard c with
  | .error e => .error e
  | .ok _ =>
    if !c.readCache .windowsDesktopService then c.backend.listWindowsDesktopServices req
    else
      match parsePredExpr req.predicateExpression with
      | .error e => .error e
      | .ok _ =>
        let pageSize := adjustedPageSize req.limit
        let pr := wdsListLoop pageSize (c.windowsDesktopServices.resourcesFrom req.startKey)
        .ok { desktopServices := pr.1, nextKey := pr.2 }

/-- The scan loop of `Cache.ListWindowsDesktops`, state-passing exactly as
in the source: skip items failing the request's `WindowsDesktopFilter`, then
the label/search/predicate switch.  The page-full `break` in the source sits
inside the `switch` statement's `case match:` block, so in Go it exits the
switch, not the `for` loop: after the page fills, the loop keeps running,
appends nothing further, and overwrites `resp.NextKey` with each later
matching desktop's pagination key — the final `NextKey` is the key of the
last matching item of the whole sequence (unlike `ListRoles` and
`ListWindowsDesktopServices`, whose `break` terminates the loop, and
`buildListResourcesResponse`, which returns). -/
def wdListLoop (desktopFilter : WindowsDesktop → Bool)
    (filter : MatchResourceFilter WindowsDesktop) (pageSize : Nat) :
    List WindowsDesktop × String → List WindowsDesktop → List WindowsDesktop × String
  | resp, [] => resp
  | resp, wd :: rest =>
    if !desktopFilter wd then wdListLoop desktopFilter filter pageSize resp rest
    else if matchResourceByFilters filter wd then
      if resp.1.length = pageSize then
        wdListLoop desktopFilter filter pageSize (resp.1, wd.paginationKey) rest
      else
        wdListLoop desktopFilter filter pageSize (resp.1 ++ [wd.copy], resp.2) rest
    else wdListLoop desktopFilter filter pageSize resp rest

/-- `Cache.ListWindowsDesktops`. -/
def Cache.listWindowsDesktops (c : Cache) (req : ListWindowsDesktopsRequest) :
    Except Err ListWindowsDesktopsResponse :=
  match acquireReadGuard c with
  | .error e => .error e
  | .ok _ =>
    if !c.readCache .windowsDesktop then c.backend.listWindowsDesktops req
    else
      match parsePredExpr req.predicateExpression with
      | .error e => .error e
      | .ok pred =>
        let filter : MatchResourceFilter WindowsDesktop :=
          { base := req.labelsSearch, pred := pred }
        let pageSize := adjustedPageSize req.limit
        let pr := wdListLoop req.desktopFilter filter pageSize ([], "")
          (c.windowsDesktops.resourcesFrom req.startKey)
        .ok { desktops := pr.1, nextKey := pr.2 }

/-! ## Database accessors (`src/lib/cache/database.go`) -/

/-- `Cache.GetDatabase`: a cache miss is surfaced directly (no backend
fall-through). -/
def Cache.getDatabase (c : Cache) (name : String) : Except Err Database :=
  match acquireReadGuard c with
  | .error e => .error e
  | .ok _ =>
    if c.readCache .database then
      match c.dbs.get name with
      | .ok d => .ok d
      | .error e => .error e
    else c.backend.getDatabase name

/-! ## The multi-kind dispatcher (`src/unnamed/part_001`) -/

/-- `buildListResourcesResponse`: the generic scan over one kind's store
sequence.  `pagKey` is the restriction of `backend.GetPaginationKey` to the
branch's resource type, and `matchFn` the outcome of
`services.MatchResourceByFilters` against the request's filter. -/
def buildListResourcesResponse {τ : Type} (resources : List τ) (limit : Nat)
    (matchFn : τ → Bool) (cloneFn : τ → CacheResource) (pagKey : τ → String) :
    Except Err ListResourcesResponse :=
  .ok { resources := (scanPage pagKey matchFn cloneFn limit resources).1,
        nextKey := (scanPage pagKey matchFn cloneFn limit resources).2 }

/-- The limit adjustment of `Cache.listResources`
(`src/unnamed/part_001` lines 102–106): only a non-positive limit is
replaced by the default ("Adjust page size, so it can't be empty"). -/
def listResourcesLimit (limit : Int) : Nat :=
  if limit ≤ 0 then defaultChunkSize else limit.toNat

/-- `Cache.listResources` (the unexported cache-served dispatcher). -/
def Cache.listResources (c : Cache) (req : ListResourcesRequest) :
    Except Err ListResourcesResponse :=
  match parsePredExpr req.predicateExpression with
  | .error e => .error e
  | .ok pred =>
    let filter : MatchResourceFilter CacheResource :=
      { base := req.labelsSearch, pred := pred }
    let limit := listResourcesLimit req.limit
    match req.resourceType with
    | .databaseServer =>
      buildListResourcesResponse (c.dbServers.resourcesFrom req.startKey) limit
        (fun d => matchResourceByFilters filter (.dbServer d))
        CacheResource.dbServer DatabaseServer.paginationKey
    | .databaseService =>
      buildListResourcesResponse (c.dbServices.resourcesFrom req.startKey) limit
        (fun d => matchResourceByFilters filter (.dbService d))
        CacheResource.dbService DatabaseService.paginationKey
    | .appServer =>
      buildListResourcesResponse (c.appServers.resourcesFrom req.startKey) limit
        (fun a => matchResourceByFilters filter (.appServer a))
        CacheResource.appServer AppServer.paginationKey
    | .node =>
      buildListResourcesResponse (c.nodes.resourcesFrom req.startKey) limit
        (fun s => matchResourceByFilters filter (.node s))
        CacheResource.node Server.paginationKey
    | .windowsDesktopService =>
      buildListResourcesResponse (c.windowsDesktopServices.resourcesFrom req.startKey) limit
        (fun w => matchResourceByFilters filter (.windowsDesktopService w))
        CacheResource.windowsDesktopService WindowsDesktopService.paginationKey
    | .kubeServer =>
      buildListResourcesResponse (c.kubeServers.resourcesFrom req.startKey) limit
        (fun k => matchResourceByFilters filter (.kubeServer k))
        CacheResource.kubeServer KubeServer.paginationKey
    | .userGroup =>
      .error (.notImplemented (Kind.userGroup.name ++ " not implemented at ListResources"))
    | .identityCenterAccount =>
      .error (.notImplemented
        (Kind.identityCenterAccount.name ++ " not implemented at ListResources"))
    | .identityCenterAccountAssignment =>
      .error (.notImplemented
        (Kind.identityCenterAccountAssignment.name ++ " not implemented at ListResources"))
    | k => .error (.notImplemented (k.name ++ " not implemented at ListResources"))

/-- `servers.SortByCustom(req.SortBy)` on the TTL-cached nodes.  Modelled
from the spec: the sorting routine is not under `src/` and the spec does not
describe it; it is modelled as keeping the list order (the claims do not
depend on the sort order). -/
def sortByCustom (servers : List Server) : Except Err (List Server) := .ok servers

/-- `local.FakePaginate` over the TTL-cached nodes.  Modelled from the spec:
not under `src/`; models the spec's §4.5 pagination/filter semantics over an
in-memory list, with the node name as the pagination key. -/
def fakePaginate (servers : List Server) (limit : Int) (startKey : String)
    (matchFn : Server → Bool) : Except Err ListResourcesResponse :=
  .ok { resources :=
          (scanPage Server.paginationKey matchFn CacheResource.node
            (listResourcesLimit limit) (fromKey Server.paginationKey startKey servers)).1,
        nextKey :=
          (scanPage Server.paginationKey matchFn CacheResource.node
            (listResourcesLimit limit) (fromKey Server.paginationKey startKey servers)).2 }

/-- `Cache.getNodesWithTTLCache` (not under `src/`): modelled as reading the
TTL node cache's current contents. -/
def Cache.getNodesWithTTLCache (c : Cache) : Except Err (List Server) := c.ttlNodes

/-- `Cache.listResourcesFallback`: every resource type except `KindNode` is
forwarded verbatim to `c.Config.Presence.ListResources`; `KindNode` is served
from the TTL node cache via `SortByCustom` and `FakePaginate`. -/
def Cache.listResourcesFallback (c : Cache) (req : ListResourcesRequest) :
    Except Err ListResourcesResponse :=
  if req.resourceType ≠ .node then c.backend.listResources req
  else
    match c.getNodesWithTTLCache with
    | .error e => .error e
    | .ok cachedNodes =>
      match sortByCustom cachedNodes with
      | .error e => .error e
      | .ok servers =>
        match parsePredExpr req.predicateExpression with
        | .error e => .error e
        | .ok pred =>
          fakePaginate servers req.limit req.startKey
            (fun s => matchResourceByFilters
              { base := req.labelsSearch, pred := pred } (.node s))

/-- `Cache.ListResources` (the exported entry point): fail fast when closed,
consult `ok`/`confirmedKinds` for the requested kind, fall back or serve. -/
def Cache.ListResources (c : Cache) (req : ListResourcesRequest) :
    Except Err ListResourcesResponse :=
  if c.closed then .error (.generic "cache is closed")
  else if !(c.ok && c.confirmedKinds.contains req.resourceType) then
    c.listResourcesFallback req
  else c.listResources req

/-! ## Loop/scan correspondence

Each per-kind list loop is an instance of the shared `scanPage` shape with
the appropriate emit predicate, clone and cursor function. -/

/-- The emit predicate of the `ListRoles` loop: only `*RoleV6` values that
pass the request filter are emitted. -/
def roleEmit (filter : Option (RoleV6 → Bool)) : Role → Bool
  | .v6 rv6 => match filter with | some f => f rv6 | none => true
  | .legacy _ => false

/-- Extraction of the `*RoleV6` payload (total helper; only applied to
emitted, hence `v6`, values). -/
def roleCast : Role → RoleV6
  | .v6 rv6 => rv6
  | .legacy n => ⟨n⟩

theorem roleListLoop_eq_scanPage (filter : Option (RoleV6 → Bool)) (n : Nat) (l : List Role) :
    roleListLoop filter n l = scanPage Role.getName (roleEmit filter) roleCast n l := by
  induction l generalizing n with
  | nil => simp [roleListLoop, scanPage]
  | cons r rest ih =>
    cases r with
    | legacy nm => simp [roleListLoop, scanPage, roleEmit, ih]
    | v6 rv6 =>
      cases filter with
      | none =>
        cases n with
        | zero => simp [roleListLoop, scanPage, roleEmit, roleCast, Role.getName]
        | succ m => simp [roleListLoop, scanPage, roleEmit, roleCast, ih]
      | some f =>
        by_cases hf : f rv6
        · cases n with
          | zero => simp [roleListLoop, scanPage, roleEmit, roleCast, Role.getName, hf]
          | succ m => simp [roleListLoop, scanPage, roleEmit, roleCast, hf, ih]
        · simp [roleListLoop, scanPage, roleEmit, hf, ih]

theorem wdsListLoop_eq_scanPage (n : Nat) (l : List WindowsDesktopService) :
    wdsListLoop n l
      = scanPage WindowsDesktopService.paginationKey (fun _ => true)
          WindowsDesktopService.clone n l := by
  induction l generalizing n with
  | nil => simp [wdsListLoop, scanPage]
  | cons svc rest ih =>
    cases n with
    | zero => simp [wdsListLoop, scanPage]
    | succ m => simp [wdsListLoop, scanPage, ih]

/-! ## Protocol wrappers

One operation-level pagination run per claimed list operation: repeatedly
call the accessor, feeding each response's `NextKey` back as the next
`StartKey`, until `NextKey` is empty; concatenate the returned pages. -/

/-- Pages of `Cache.ListRoles`, chained via `NextKey`. -/
def Cache.listRolesAll (c : Cache) (limit : Int) (filter : Option (RoleV6 → Bool))
    (fuel : Nat) : List RoleV6 :=
  collectPages
    (fun s =>
      match c.listRoles { limit := limit, startKey := s, filter := filter } with
      | .ok resp => (resp.roles, resp.nextKey)
      | .error _ => ([], ""))
    fuel ""

/-- Pages of `Cache.ListWindowsDesktopServices`, chained via `NextKey`. -/
def Cache.listWindowsDesktopServicesAll (c : Cache) (limit : Int)
    (labelsSearch : WindowsDesktopService → Bool)
    (pe : PredExpr WindowsDesktopService) (fuel : Nat) : List WindowsDesktopService :=
  collectPages
    (fun s =>
      match c.listWindowsDesktopServices
          { limit := limit, startKey := s, labelsSearch := labelsSearch,
            predicateExpression := pe } with
      | .ok resp => (resp.desktopServices, resp.nextKey)
      | .error _ => ([], ""))
    fuel ""

/-- Pages of `Cache.ListWindowsDesktops`, chained via `NextKey`. -/
def Cache.listWindowsDesktopsAll (c : Cache) (limit : Int)
    (df : WindowsDesktop → Bool) (labelsSearch : WindowsDesktop → Bool)
    (pe : PredExpr WindowsDesktop) (fuel : Nat) : List WindowsDesktop :=
  collectPages
    (fun s =>
      match c.listWindowsDesktops
          { limit := limit, startKey := s, desktopFilter := df,
            labelsSearch := labelsSearch, predicateExpression := pe } with
      | .ok resp => (resp.desktops, resp.nextKey)
      | .error _ => ([], ""))
    fuel ""

/-- Pages of `Cache.ListResources`, chained via `NextKey`. -/
def Cache.listResourcesAll (c : Cache) (kind : Kind) (limit : Int)
    (labelsSearch : CacheResource → Bool) (pe : PredExpr CacheResource)
    (fuel : Nat) : List CacheResource :=
  collectPages
    (fun s =>
      match c.ListResources
          { resourceType := kind, limit := limit, startKey := s,
            labelsSearch := labelsSearch, predicateExpression := pe } with
      | .ok resp => (resp.resources, resp.nextKey)
      | .error _ => ([], ""))
    fuel ""

/-! ## Clamp facts and trusted-path page shapes -/

theorem adjustedPageSize_pos (limit : Int) : 1 ≤ adjustedPageSize limit := by
  unfold adjustedPageSize
  split
  · decide
  · rename_i h
    push_neg at h
    have : (0 : Int) < limit := h.1
    omega

theorem adjustedPageSize_le (limit : Int) :
    adjustedPageSize limit ≤ defaultChunkSize := by
  unfold adjustedPageSize
  split
  · exact le_refl _
  · rename_i h
    push_neg at h
    have h2 := h.2
    unfold defaultChunkSize at h2 ⊢
    omega

theorem listResourcesLimit_pos (limit : Int) : 1 ≤ listResourcesLimit limit := by
  unfold listResourcesLimit
  split
  · decide
  · rename_i h
    push_neg at h
    omega

/-- `ListRoles` on a trusted cache: the page is the shared scan over the
store suffix from `StartKey`. -/
theorem listRoles_trusted (c : Cache) (req : ListRolesRequest)
    (hc : c.closed = false) (hr : c.readCache .role = true) :
    c.listRoles req
      = .ok { roles := (scanPage Role.getName (roleEmit req.filter) roleCast
                (adjustedPageSize req.limit) (c.roles.resourcesFrom req.startKey)).1,
              nextKey := (scanPage Role.getName (roleEmit req.filter) roleCast
                (adjustedPageSize req.limit) (c.roles.resourcesFrom req.startKey)).2 } := by
  simp [Cache.listRoles, acquireReadGuard, hc, hr, roleListLoop_eq_scanPage]

/-- `ListWindowsDesktopServices` on a trusted cache with a well-formed
predicate expression. -/
theorem listWindowsDesktopServices_trusted (c : Cache)
    (req : ListWindowsDesktopServicesRequest)
    (hc : c.closed = false) (hr : c.readCache .windowsDesktopService = true)
    (po : Option (WindowsDesktopService → Bool))
    (hpe : parsePredExpr req.predicateExpression = .ok po) :
    c.listWindowsDesktopServices req
      = .ok { desktopServices :=
                (scanPage WindowsDesktopService.paginationKey (fun _ => true)
                  WindowsDesktopService.clone (adjustedPageSize req.limit)
                  (c.windowsDesktopServices.resourcesFrom req.startKey)).1,
              nextKey :=
                (scanPage WindowsDesktopService.paginationKey (fun _ => true)
                  WindowsDesktopService.clone (adjustedPageSize req.limit)
                  (c.windowsDesktopServices.resourcesFrom req.startKey)).2 } := by
  simp [Cache.listWindowsDesktopServices, acquireReadGuard, hc, hr, hpe,
    wdsListLoop_eq_scanPage]

/-! ## Claim C1 -/

/-- Pagination completeness for the list operations whose page-full break
terminates the scan (`ListRoles`, `ListWindowsDesktopServices`, generic
`buildListResourcesResponse`, and `ListResources` at `KindDatabaseServer`):
chaining calls via `NextKey` until it is empty returns exactly the matching
items, each exactly once, in ascending store-key order.
(`Cache.ListWindowsDesktops` is not among them: its page-full break only
exits the per-item switch — see `c1_windows_desktops_pagination_gap`.) -/
theorem listOps_pagination_completeness :
    (∀ (c : Cache) (limit : Int) (filter : Option (RoleV6 → Bool)) (fuel : Nat),
      c.closed = false → c.readCache .role = true →
      c.roles.keyOf = Role.getName → c.roles.wf →
      c.roles.items.length < fuel →
      c.listRolesAll limit filter fuel
        = (c.roles.items.filter (roleEmit filter)).map roleCast)
    ∧
    (∀ (c : Cache) (limit : Int) (ls : WindowsDesktopService → Bool)
        (po : Option (WindowsDesktopService → Bool))
        (pe : PredExpr WindowsDesktopService) (fuel : Nat),
      c.closed = false → c.readCache .windowsDesktopService = true →
      c.windowsDesktopServices.keyOf = WindowsDesktopService.paginationKey →
      c.windowsDesktopServices.wf →
      parsePredExpr pe = .ok po →
      c.windowsDesktopServices.items.length < fuel →
      c.listWindowsDesktopServicesAll limit ls pe fuel
        = c.windowsDesktopServices.items)
    ∧
    (∀ (τ : Type) (items : List τ) (pagKey : τ → String) (matchFn : τ → Bool)
        (cloneFn : τ → CacheResource) (limit fuel : Nat),
      items.Pairwise (fun a b => strLt (pagKey a) (pagKey b)) → 1 ≤ limit →
      items.length < fuel →
      collectPages
          (fun s =>
            match buildListResourcesResponse (fromKey pagKey s items) limit
                matchFn cloneFn pagKey with
            | .ok resp => (resp.resources, resp.nextKey)
            | .error _ => ([], ""))
          fuel ""
        = (items.filter matchFn).map cloneFn)
    ∧
    (∀ (c : Cache) (limit : Int) (ls : CacheResource → Bool)
        (po : Option (CacheResource → Bool)) (pe : PredExpr CacheResource)
        (fuel : Nat),
      c.closed = false → c.ok = true →
      c.confirmedKinds.contains Kind.databaseServer = true →
      c.dbServers.keyOf = DatabaseServer.paginationKey → c.dbServers.wf →
      parsePredExpr pe = .ok po →
      c.dbServers.items.length < fuel →
      c.listResourcesAll .databaseServer limit ls pe fuel
        = (c.dbServers.items.filter
            (fun d => matchResourceByFilters { base := ls, pred := po } (.dbServer d))).map
            CacheResource.dbServer) := by
  refine ⟨?_, ?_, ?_, ?_⟩
  · -- ListRoles
    intro c limit filter fuel hc hr hk hwf hfuel
    unfold Cache.listRolesAll
    have hfn :
        (fun s =>
          match c.listRoles { limit := limit, startKey := s, filter := filter } with
          | .ok resp => (resp.roles, resp.nextKey)
          | .error _ => ([], ""))
        = fun s => scanPage Role.getName (roleEmit filter) roleCast
            (adjustedPageSize limit) (fromKey Role.getName s c.roles.items) := by
      funext s
      rw [listRoles_trusted c _ hc hr]
      simp [Store.resourcesFrom, hk]
    rw [hfn]
    rw [Store.wf, hk] at hwf
    have hlen :
        ((fromKey Role.getName "" c.roles.items).filter (roleEmit filter)).length < fuel := by
      rw [fromKey_empty]
      exact lt_of_le_of_lt (List.length_filter_le _ _) hfuel
    rw [collectPages_complete Role.getName (roleEmit filter) roleCast c.roles.items hwf
      (adjustedPageSize limit) (adjustedPageSize_pos limit) fuel "" hlen, fromKey_empty]
  · -- ListWindowsDesktopServices
    intro c limit ls po pe fuel hc hr hk hwf hpe hfuel
    unfold Cache.listWindowsDesktopServicesAll
    have hfn :
        (fun s =>
          match c.listWindowsDesktopServices
              { limit := limit, startKey := s, labelsSearch := ls,
                predicateExpression := pe } with
          | .ok resp => (resp.desktopServices, resp.nextKey)
          | .error _ => ([], ""))
        = fun s => scanPage WindowsDesktopService.paginationKey (fun _ => true)
            WindowsDesktopService.clone (adjustedPageSize limit)
            (fromKey WindowsDesktopService.paginationKey s c.windowsDesktopServices.items) := by
      funext s
      rw [listWindowsDesktopServices_trusted c _ hc hr po hpe]
      simp [Store.resourcesFrom, hk]
    rw [hfn]
    rw [Store.wf, hk] at hwf
    have hlen :
        ((fromKey WindowsDesktopService.paginationKey "" c.windowsDesktopServices.items).filter
          (fun _ => true)).length < fuel := by
      rw [fromKey_empty]
      exact lt_of_le_of_lt (List.length_filter_le _ _) hfuel
    rw [collectPages_complete WindowsDesktopService.paginationKey (fun _ => true)
      WindowsDesktopService.clone c.windowsDesktopServices.items hwf
      (adjustedPageSize limit) (adjustedPageSize_pos limit) fuel "" hlen, fromKey_empty]
    rw [List.filter_true]
    exact List.map_id'' (fun _ => rfl) _
  · -- buildListResourcesResponse
    intro τ items pagKey matchFn cloneFn limit fuel SS hl hfuel
    have hfn :
        (fun s =>
          match buildListResourcesResponse (fromKey pagKey s items) limit
              matchFn cloneFn pagKey with
          | .ok resp => (resp.resources, resp.nextKey)
          | .error _ => ([], ""))
        = fun s => scanPage pagKey matchFn cloneFn limit (fromKey pagKey s items) := by
      funext s
      simp [buildListResourcesResponse]
    rw [hfn]
    have hlen : ((fromKey pagKey "" items).filter matchFn).length < fuel := by
      rw [fromKey_empty]
      exact lt_of_le_of_lt (List.length_filter_le _ _) hfuel
    rw [collectPages_complete pagKey matchFn cloneFn items SS limit hl fuel "" hlen,
      fromKey_empty]
  · -- ListResources at KindDatabaseServer
    intro c limit ls po pe fuel hc hok hcont hk hwf hpe hfuel
    unfold Cache.listResourcesAll
    have hfn :
        (fun s =>
          match c.ListResources
              { resourceType := .databaseServer, limit := limit, startKey := s,
                labelsSearch := ls, predicateExpression := pe } with
          | .ok resp => (resp.resources, resp.nextKey)
          | .error _ => ([], ""))
        = fun s => scanPage DatabaseServer.paginationKey
            (fun d => matchResourceByFilters { base := ls, pred := po } (.dbServer d))
            CacheResource.dbServer (listResourcesLimit limit)
            (fromKey DatabaseServer.paginationKey s c.dbServers.items) := by
      funext s
      have hmem : Kind.databaseServer ∈ c.confirmedKinds := by simpa using hcont
      simp [Cache.ListResources, hc, hok, hcont, hmem, Cache.listResources, hpe,
        buildListResourcesResponse, Store.resourcesFrom, hk]
    rw [hfn]
    rw [Store.wf, hk] at hwf
    have hlen :
        ((fromKey DatabaseServer.paginationKey "" c.dbServers.items).filter
          (fun d => matchResourceByFilters { base := ls, pred := po } (.dbServer d))).length
          < fuel := by
      rw [fromKey_empty]
      exact lt_of_le_of_lt (List.length_filter_le _ _) hfuel
    rw [collectPages_complete DatabaseServer.paginationKey
      (fun d => matchResourceByFilters { base := ls, pred := po } (.dbServer d))
      CacheResource.dbServer c.dbServers.items hwf
      (listResourcesLimit limit) (listResourcesLimit_pos limit) fuel "" hlen, fromKey_empty]

/-! ## Concrete fixtures for witnesses and counterexamples -/

/-- A backend with empty/absent responses. -/
def trivialBackend : Backend where
  getRoles := .ok []
  listRoles := fun _ => .ok { roles := [], nextKey := "" }
  getRole := fun _ => .error (.notFound "not found")
  getWindowsDesktopService := fun _ => .error (.notFound "not found")
  listWindowsDesktopServices := fun _ => .ok { desktopServices := [], nextKey := "" }
  listWindowsDesktops := fun _ => .ok { desktops := [], nextKey := "" }
  getDatabase := fun _ => .error (.notFound "not found")
  listResources := fun _ => .ok { resources := [], nextKey := "" }

/-- A ready cache with empty stores whose index key functions are the ones
registered by the collection constructors in `src/`. -/
def baseCache : Cache where
  ok := true
  confirmedKinds := []
  closed := false
  roles := ⟨Role.getName, []⟩
  windowsDesktopServices := ⟨WindowsDesktopService.paginationKey, []⟩
  windowsDesktops := ⟨WindowsDesktop.paginationKey, []⟩
  dbs := ⟨Database.name, []⟩
  dbServers := ⟨DatabaseServer.paginationKey, []⟩
  dbServices := ⟨DatabaseService.paginationKey, []⟩
  appServers := ⟨AppServer.paginationKey, []⟩
  nodes := ⟨Server.paginationKey, []⟩
  kubeServers := ⟨KubeServer.paginationKey, []⟩
  backend := trivialBackend
  ttlNodes := .ok []

/-- Roles store fixture: two `*RoleV6` values and one other implementation. -/
def c1RolesCache : Cache :=
  { baseCache with
    confirmedKinds := [.role]
    roles := ⟨Role.getName, [.v6 ⟨"admin"⟩, .legacy "aux-role", .v6 ⟨"dev"⟩]⟩ }

/-- Desktop-services store fixture. -/
def c1WdsCache : Cache :=
  { baseCache with
    confirmedKinds := [.windowsDesktopService]
    windowsDesktopServices :=
      ⟨WindowsDesktopService.paginationKey, [⟨"svc-1"⟩, ⟨"svc-2"⟩, ⟨"svc-3"⟩]⟩ }

/-- Desktops store fixture (composite `hostID/name` keys). -/
def c1WdCache : Cache :=
  { baseCache with
    confirmedKinds := [.windowsDesktop]
    windowsDesktops :=
      ⟨WindowsDesktop.paginationKey, [⟨"h1", "d1"⟩, ⟨"h1", "d2"⟩, ⟨"h2", "d1"⟩]⟩ }

/-- Database-servers store fixture. -/
def c1DbCache : Cache :=
  { baseCache with
    confirmedKinds := [.databaseServer]
    dbServers := ⟨DatabaseServer.paginationKey, [⟨"h1", "mysql"⟩, ⟨"h2", "pg"⟩]⟩ }

/-- Witness for the completeness helper: its four conjuncts evaluated at
concrete stores, with page sizes smaller than the item counts so several
pages are chained. -/
theorem listOps_pagination_completeness_witness :
    (c1RolesCache.listRolesAll 1 none 4 = [⟨"admin"⟩, ⟨"dev"⟩])
    ∧ (c1WdsCache.listWindowsDesktopServicesAll 2 (fun _ => true) .empty 4
        = [⟨"svc-1"⟩, ⟨"svc-2"⟩, ⟨"svc-3"⟩])
    ∧ (collectPages
        (fun s =>
          match buildListResourcesResponse
              (fromKey DatabaseService.paginationKey s
                [(⟨"a"⟩ : DatabaseService), ⟨"b"⟩]) 1
              (fun _ => true) CacheResource.dbService DatabaseService.paginationKey with
          | .ok resp => (resp.resources, resp.nextKey)
          | .error _ => ([], ""))
        3 "" = [.dbService ⟨"a"⟩, .dbService ⟨"b"⟩])
    ∧ (c1DbCache.listResourcesAll .databaseServer 1 (fun _ => true) .empty 3
        = [.dbServer ⟨"h1", "mysql"⟩, .dbServer ⟨"h2", "pg"⟩]) := by
  refine ⟨?_, ?_, ?_, ?_⟩
  · exact (listOps_pagination_completeness.1 c1RolesCache 1 none 4 rfl rfl rfl
      (by unfold Store.wf; decide) (by decide)).trans rfl
  · exact (listOps_pagination_completeness.2.1 c1WdsCache 2 (fun _ => true) none .empty 4
      rfl rfl rfl (by unfold Store.wf; decide) rfl (by decide)).trans rfl
  · exact (listOps_pagination_completeness.2.2.1 DatabaseService
      [⟨"a"⟩, ⟨"b"⟩] DatabaseService.paginationKey (fun _ => true)
      CacheResource.dbService 1 3 (by decide) (by decide) (by decide)).trans rfl
  · exact (listOps_pagination_completeness.2.2.2 c1DbCache 1 (fun _ => true) none .empty 3
      rfl rfl rfl rfl (by unfold Store.wf; decide) rfl (by decide)).trans rfl

/-- C1, evaluated at the failing input: over the desktops
`h1/d1, h1/d2, h2/d1` with page size 1, `ListWindowsDesktops` returns the
page `[h1/d1]` with `NextKey = "h2/d1"` — the page-full break only exits the
per-item switch, so the loop keeps running and `NextKey` is overwritten down
to the key of the last matching desktop.  Resuming there skips `h1/d2`: the
chained protocol returns only `h1/d1, h2/d1`, while the store holds three
matching desktops — a pagination gap, contradicting the claim that every
matching item is returned exactly once with no gap.  (The other listed
operations satisfy the claim: `listOps_pagination_completeness`.) -/
theorem c1_windows_desktops_pagination_gap :
    c1WdCache.listWindowsDesktops
        { limit := 1, startKey := "", desktopFilter := fun _ => true,
          labelsSearch := fun _ => true, predicateExpression := .empty }
      = .ok { desktops := [⟨"h1", "d1"⟩], nextKey := "h2/d1" }
    ∧ c1WdCache.listWindowsDesktops
        { limit := 1, startKey := "h2/d1", desktopFilter := fun _ => true,
          labelsSearch := fun _ => true, predicateExpression := .empty }
      = .ok { desktops := [⟨"h2", "d1"⟩], nextKey := "" }
    ∧ c1WdCache.listWindowsDesktopsAll 1 (fun _ => true) (fun _ => true) .empty 5
      = [⟨"h1", "d1"⟩, ⟨"h2", "d1"⟩]
    ∧ c1WdCache.windowsDesktops.items = [⟨"h1", "d1"⟩, ⟨"h1", "d2"⟩, ⟨"h2", "d1"⟩]
    ∧ (⟨"h1", "d2"⟩ : WindowsDesktop) ∉
        [(⟨"h1", "d1"⟩ : WindowsDesktop), ⟨"h2", "d1"⟩] := by
  refine ⟨rfl, rfl, rfl, rfl, ?_⟩
  decide


/-! ## Claim C2 -/

/-- A cache that is not `ok`, with an empty TTL node cache but a backend
whose `ListResources` reports one node. -/
def c2NodeCache : Cache :=
  { baseCache with
    ok := false
    backend :=
      { trivialBackend with
        listResources := fun _ =>
          .ok { resources := [.node ⟨"n1"⟩], nextKey := "" } } }

def c2NodeReq : ListResourcesRequest :=
  { resourceType := .node, limit := 0, startKey := "",
    labelsSearch := fun _ => true, predicateExpression := .empty }

/-- Counterexample for C2: with the cache not `ok`, `ListResources` for
`KindNode` does not forward to the backend: it serves from the TTL node
cache (empty here), while the direct backend call returns one node. -/
theorem c2_fallback_counterexample :
    c2NodeCache.ListResources c2NodeReq = .ok { resources := [], nextKey := "" }
    ∧ c2NodeCache.backend.listResources c2NodeReq
        = .ok { resources := [.node ⟨"n1"⟩], nextKey := "" }
    ∧ ListResourcesResponse.mk [] ""
        ≠ ListResourcesResponse.mk [.node ⟨"n1"⟩] "" := by
  refine ⟨rfl, rfl, ?_⟩
  simp

/-- C2 (amended): when the read guard refuses the cache (`!ReadCache()`, or
`ok`/confirmed-kind false for `ListResources`), `GetRoles`, `ListRoles`,
`GetRole`, `ListWindowsDesktopServices` forward the call verbatim to the
backend and return its result and error unmodified; `ListResources` does so
for every resource type except `KindNode`, which is served from the TTL node
cache with client-side sorting and fake pagination instead. -/
theorem c2_fallback_forwards_verbatim :
    (∀ (c : Cache), c.closed = false → c.readCache .role = false →
      c.getRoles = c.backend.getRoles)
    ∧ (∀ (c : Cache) (req : ListRolesRequest), c.closed = false →
        c.readCache .role = false →
        c.listRoles req = c.backend.listRoles req)
    ∧ (∀ (c : Cache) (name : String), c.closed = false →
        c.readCache .role = false →
        c.getRole name = c.backend.getRole name)
    ∧ (∀ (c : Cache) (req : ListWindowsDesktopServicesRequest), c.closed = false →
        c.readCache .windowsDesktopService = false →
        c.listWindowsDesktopServices req = c.backend.listWindowsDesktopServices req)
    ∧ (∀ (c : Cache) (req : ListResourcesRequest), c.closed = false →
        (c.ok && c.confirmedKinds.contains req.resourceType) = false →
        req.resourceType ≠ .node →
        c.ListResources req = c.backend.listResources req) := by
  refine ⟨?_, ?_, ?_, ?_, ?_⟩
  · intro c hc hr
    simp [Cache.getRoles, acquireReadGuard, hc, hr]
  · intro c req hc hr
    simp [Cache.listRoles, acquireReadGuard, hc, hr]
  · intro c name hc hr
    simp [Cache.getRole, acquireReadGuard, hc, hr]
  · intro c req hc hr
    simp [Cache.listWindowsDesktopServices, acquireReadGuard, hc, hr]
  · intro c req hc hfall hkind
    simp [Cache.ListResources, hc, hfall, Cache.listResourcesFallback, hkind]
    intro hok hmem
    rw [hok] at hfall
    simp at hfall
    exact absurd hmem hfall

/-- A cache that is not `ok` over a backend with distinctive responses. -/
def c2Cache : Cache :=
  { baseCache with
    ok := false
    backend :=
      { trivialBackend with
        getRoles := .ok [.v6 ⟨"backend-role"⟩]
        listResources := fun _ =>
          .ok { resources := [.dbServer ⟨"h", "b-db"⟩], nextKey := "k" } } }

/-- Witness for C2 (amended): each fallback conjunct at a concrete
not-`ok` cache. -/
theorem c2_fallback_forwards_verbatim_witness :
    (c2Cache.getRoles = .ok [.v6 ⟨"backend-role"⟩])
    ∧ (c2Cache.getRole "r" = .error (.notFound "not found"))
    ∧ (c2Cache.ListResources
        { resourceType := .databaseServer, limit := 7, startKey := "",
          labelsSearch := fun _ => true, predicateExpression := .empty }
        = .ok { resources := [.dbServer ⟨"h", "b-db"⟩], nextKey := "k" }) := by
  refine ⟨?_, ?_, ?_⟩
  · exact (c2_fallback_forwards_verbatim.1 c2Cache rfl rfl).trans rfl
  · exact (c2_fallback_forwards_verbatim.2.2.1 c2Cache "r" rfl rfl).trans rfl
  · exact (c2_fallback_forwards_verbatim.2.2.2.2 c2Cache _ rfl rfl (by decide)).trans rfl

/-! ## Claim C3: deep-copy semantics

Modelled from the spec: the resources' `Clone`/`Copy` implementations are
not under `src/`; per the spec (§3) "every read path returns a deep copy,
never a reference into cache-internal storage — invariant: external mutation
of a returned resource must never be observable by later cache reads".  To
state the aliasing content we make references explicit: a heap of payloads
addressed by allocation index, the store's `"name"` index mapping names to
references, a read that clones (allocates a fresh reference carrying the
same payload, as `r.Clone()`/`d.Copy()` do on the cache-served paths of
`GetRole`, `GetRoles`, `GetDatabase`, `ListRoles`, ...), and caller-side
mutation that overwrites the payload behind a reference. -/

/-- Cache-internal storage with explicit references: `heap` is the payload
behind each allocated reference, `index` the store's name index. -/
structure RefStore where
  heap : List String
  index : List (String × Nat)

/-- Every indexed reference is allocated. -/
def RefStore.wf (m : RefStore) : Prop :=
  ∀ p ∈ m.index, p.2 < m.heap.length

theorem lookup_mem (l : List (String × Nat)) (n : String) (i : Nat)
    (h : l.lookup n = some i) : (n, i) ∈ l := by
  induction l with
  | nil => simp [List.lookup] at h
  | cons p rest ih =>
    rw [List.lookup] at h
    by_cases he : (n == p.1)
    · rw [he] at h
      simp at h
      have hn : n = p.1 := by simpa using he
      cases p
      simp_all
    · rw [Bool.not_eq_true] at he
      rw [he] at h
      exact List.mem_cons_of_mem _ (ih h)

/-- A cache-served `GetX(name)`: look up the stored reference and return a
deep copy — a fresh reference (`m.heap.length`) holding the same payload. -/
def RefStore.getClone (m : RefStore) (name : String) : Option (RefStore × Nat) :=
  match m.index.lookup name with
  | none => none
  | some i => some ({ m with heap := m.heap ++ [m.heap.getD i ""] }, m.heap.length)

/-- Caller-side mutation of a returned resource: overwrite the payload
behind the reference the caller received. -/
def RefStore.mutate (m : RefStore) (ref : Nat) (p : String) : RefStore :=
  { m with heap := m.heap.set ref p }

/-- The payload a later cache read of `name` observes. -/
def RefStore.readPayload (m : RefStore) (name : String) : Option String :=
  match m.index.lookup name with
  | none => none
  | some i => some (m.heap.getD i "")

/-- C3: a cache-served read returns a deep copy of the stored value — the
returned reference is fresh and carries the stored payload, and overwriting
the payload behind it never changes what a later cache read of the same key
returns. -/
theorem c3_reads_return_deep_copies (m : RefStore) (name : String)
    (m' : RefStore) (ref : Nat) (hwf : m.wf)
    (hget : m.getClone name = some (m', ref)) (p : String) :
    m'.heap.getD ref "" = (m.readPayload name).getD ""
    ∧ (m'.mutate ref p).readPayload name = m.readPayload name := by
  unfold RefStore.getClone at hget
  cases hlu : m.index.lookup name with
  | none => rw [hlu] at hget; exact absurd hget (by simp)
  | some i =>
    rw [hlu] at hget
    have hi : i < m.heap.length := hwf (name, i) (lookup_mem _ _ _ hlu)
    simp only [Option.some.injEq, Prod.mk.injEq] at hget
    obtain ⟨hm', href⟩ := hget
    constructor
    · rw [← hm', ← href]
      rw [RefStore.readPayload, hlu]
      simp [List.getD_append_right, List.getD_append, hi]
    · rw [← hm', ← href]
      rw [RefStore.mutate, RefStore.readPayload, RefStore.readPayload, hlu]
      simp only [Option.some.injEq]
      rw [List.getD_eq_getElem?_getD, List.getD_eq_getElem?_getD,
        List.getElem?_set_ne (by omega)]
      simp [List.getElem?_append, hi]

/-- A concrete two-entry store for the witness. -/
def c3Store : RefStore :=
  { heap := ["role-a-spec", "role-b-spec"], index := [("a", 0), ("b", 1)] }

/-- Witness for C3: reading `"a"` clones its payload into the fresh
reference 2, and mutating through reference 2 leaves later reads of `"a"`
unchanged. -/
theorem c3_reads_return_deep_copies_witness :
    (match c3Store.getClone "a" with
      | some (m', ref) =>
        m'.heap.getD ref "" = "role-a-spec"
        ∧ (m'.mutate ref "tampered").readPayload "a" = some "role-a-spec"
      | none => False) := by
  have h := c3_reads_return_deep_copies c3Store "a"
    { heap := ["role-a-spec", "role-b-spec", "role-a-spec"],
      index := [("a", 0), ("b", 1)] } 2
    (by unfold RefStore.wf c3Store; decide)
    (by rfl) "tampered"
  exact ⟨h.1.trans rfl, h.2.trans rfl⟩

/-! ## Claim C4 -/

/-- A ready cache whose desktop-services store holds exactly
`svc-1 .. svc-5`. -/
def c4Cache : Cache :=
  { baseCache with
    confirmedKinds := [.windowsDesktopService]
    windowsDesktopServices :=
      ⟨WindowsDesktopService.paginationKey,
        [⟨"svc-1"⟩, ⟨"svc-2"⟩, ⟨"svc-3"⟩, ⟨"svc-4"⟩, ⟨"svc-5"⟩]⟩ }

def c4Req (start : String) : ListWindowsDesktopServicesRequest :=
  { limit := 2, startKey := start, labelsSearch := fun _ => true,
    predicateExpression := .empty }

/-- Counterexample for C4: the first `ListWindowsDesktopServices(limit=2)`
call over `svc-1..svc-5` returns `svc-1, svc-2` with `NextKey = "svc-3"`
(the first service that did not fit), not `"svc-2"` as claimed. -/
theorem c4_scenario_counterexample :
    c4Cache.listWindowsDesktopServices (c4Req "")
      = .ok { desktopServices := [⟨"svc-1"⟩, ⟨"svc-2"⟩], nextKey := "svc-3" }
    ∧ ("svc-3" : String) ≠ "svc-2" := by
  refine ⟨rfl, ?_⟩
  intro h
  have : ("svc-3" : String).data = ("svc-2" : String).data := congrArg String.data h
  simp at this

/-- C4 (amended): over `svc-1..svc-5` with limit 2, the first call returns
`svc-1, svc-2` with `NextKey = "svc-3"`; the call with `StartKey = "svc-3"`
returns `svc-3, svc-4` with `NextKey = "svc-5"`; and the call with
`StartKey = "svc-5"` returns `svc-5` with empty `NextKey` (the `NextKey`
cursor names the first item of the next page, and resuming starts
inclusively at it). -/
theorem c4_scenario_amended :
    c4Cache.listWindowsDesktopServices (c4Req "")
      = .ok { desktopServices := [⟨"svc-1"⟩, ⟨"svc-2"⟩], nextKey := "svc-3" }
    ∧ c4Cache.listWindowsDesktopServices (c4Req "svc-3")
      = .ok { desktopServices := [⟨"svc-3"⟩, ⟨"svc-4"⟩], nextKey := "svc-5" }
    ∧ c4Cache.listWindowsDesktopServices (c4Req "svc-5")
      = .ok { desktopServices := [⟨"svc-5"⟩], nextKey := "" } :=
  ⟨rfl, rfl, rfl⟩

/-! ## Claim C5 -/

/-- A cache trusted for windows desktop services whose store is empty but
whose backend does have the requested service. -/
def c5Cache : Cache :=
  { baseCache with
    confirmedKinds := [.windowsDesktopService, .database]
    backend :=
      { trivialBackend with
        getWindowsDesktopService := fun _ => .ok ⟨"x"⟩
        getDatabase := fun _ => .ok ⟨"x"⟩ } }

/-- Counterexample for C5: with the cache trusted and `"x"` absent from the
store, `GetWindowsDesktopService` surfaces `NotFound` even though the
backend has the resource — it never consults the backend on a cache miss. -/
theorem c5_get_notfound_counterexample :
    c5Cache.getWindowsDesktopService "x" = .error (.notFound "key is not found")
    ∧ c5Cache.backend.getWindowsDesktopService "x" = .ok ⟨"x"⟩ :=
  ⟨rfl, rfl⟩

/-- C5 (amended): among the single-resource Get accessors, only `GetRole`
falls through to the backend on a trusted-cache miss (returning the
backend's role when the backend succeeds, and surfacing the store's
`NotFound` otherwise); `GetWindowsDesktopService` and `GetDatabase` surface
the cache miss directly, regardless of what the backend holds. -/
theorem c5_get_notfound_fallthrough :
    (∀ (c : Cache) (name : String) (r : Role), c.closed = false →
      c.readCache .role = true →
      c.roles.get name = .error (.notFound "key is not found") →
      c.backend.getRole name = .ok r →
      c.getRole name = .ok r)
    ∧ (∀ (c : Cache) (name : String) (e : Err), c.closed = false →
        c.readCache .role = true →
        c.roles.get name = .error (.notFound "key is not found") →
        c.backend.getRole name = .error e →
        c.getRole name = .error (.notFound "key is not found"))
    ∧ (∀ (c : Cache) (name : String) (e : Err), c.closed = false →
        c.readCache .windowsDesktopService = true →
        c.windowsDesktopServices.get name = .error e →
        c.getWindowsDesktopService name = .error e)
    ∧ (∀ (c : Cache) (name : String) (e : Err), c.closed = false →
        c.readCache .database = true →
        c.dbs.get name = .error e →
        c.getDatabase name = .error e) := by
  refine ⟨?_, ?_, ?_, ?_⟩
  · intro c name r hc hr hmiss hb
    simp [Cache.getRole, acquireReadGuard, hc, hr, hmiss, hb, Err.isNotFound]
  · intro c name e hc hr hmiss hb
    simp [Cache.getRole, acquireReadGuard, hc, hr, hmiss, hb, Err.isNotFound]
  · intro c name e hc hr hmiss
    simp [Cache.getWindowsDesktopService, acquireReadGuard, hc, hr, hmiss]
  · intro c name e hc hr hmiss
    simp [Cache.getDatabase, acquireReadGuard, hc, hr, hmiss]

/-- A trusted cache whose role store misses `"r"` while the backend has it. -/
def c5RoleCache : Cache :=
  { baseCache with
    confirmedKinds := [.role]
    backend := { trivialBackend with getRole := fun _ => .ok (.v6 ⟨"r"⟩) } }

/-- Witness for C5 (amended): `GetRole` recovers the backend's role on a
cache miss; `GetWindowsDesktopService` surfaces the miss. -/
theorem c5_get_notfound_fallthrough_witness :
    c5RoleCache.getRole "r" = .ok (.v6 ⟨"r"⟩)
    ∧ c5Cache.getWindowsDesktopService "x" = .error (.notFound "key is not found") := by
  refine ⟨?_, ?_⟩
  · exact c5_get_notfound_fallthrough.1 c5RoleCache "r" (.v6 ⟨"r"⟩) rfl rfl rfl rfl
  · exact c5_get_notfound_fallthrough.2.2.1 c5Cache "x" (.notFound "key is not found")
      rfl rfl rfl

/-! ## Claim C6 -/

/-- 1001 database services (more than `defaults.DefaultChunkSize`). -/
def c6Services : List DatabaseService :=
  (List.range 1001).map (fun i => ⟨toString i⟩)

def c6Cache : Cache :=
  { baseCache with
    confirmedKinds := [.databaseService]
    dbServices := ⟨DatabaseService.paginationKey, c6Services⟩ }

def c6Req : ListResourcesRequest :=
  { resourceType := .databaseService, limit := 1001, startKey := "",
    labelsSearch := fun _ => true, predicateExpression := .empty }

/-- Counterexample for C6: a cache-served `ListResources` call with
`limit = 1001` returns a single page of 1001 items — the requested limit is
not clamped to `defaults.DefaultChunkSize` (the dispatcher only replaces
non-positive limits). -/
theorem c6_clamp_counterexample :
    c6Cache.ListResources c6Req
      = .ok { resources := c6Services.map CacheResource.dbService, nextKey := "" }
    ∧ (c6Services.map CacheResource.dbService).length = 1001
    ∧ defaultChunkSize < 1001 := by
  refine ⟨?_, ?_, ?_⟩
  · have hlen : c6Services.length = 1001 := by simp [c6Services]
    have hemit :
        ∀ d : DatabaseService,
          matchResourceByFilters
            { base := (fun (_ : CacheResource) => true), pred := none }
            (.dbService d) = true := by
      intro d
      simp [matchResourceByFilters]
    have hfix : c6Cache.ListResources c6Req = c6Cache.listResources c6Req := by
      simp [Cache.ListResources, c6Cache, baseCache, c6Req]
    rw [hfix]
    unfold Cache.listResources
    simp only [c6Req, parsePredExpr, buildListResourcesResponse]
    rw [Store.resourcesFrom]
    simp only [c6Cache, fromKey_empty]
    rw [scanPage_fst, scanPage_snd]
    rw [List.filter_eq_self.mpr (fun d _ => hemit d)]
    rw [pageNextKey, List.drop_eq_nil_iff.mpr (by rw [hlen]; simp [listResourcesLimit]),
      List.take_of_length_le (by rw [hlen]; simp [listResourcesLimit])]
  · simp [c6Services]
  · decide

/-- C6 (amended): `ListRoles`, `ListWindowsDesktopServices` and
`ListWindowsDesktops` clamp the page size into `1..DefaultChunkSize` (so a
cache-served page never exceeds the default), but `Cache.listResources`
replaces only non-positive limits by the default and uses a larger requested
limit as-is; a page built by `buildListResourcesResponse` is bounded by that
(possibly larger than default) effective limit. -/
theorem c6_page_size_clamp :
    (∀ limit : Int,
      1 ≤ adjustedPageSize limit ∧ adjustedPageSize limit ≤ defaultChunkSize)
    ∧ (∀ (c : Cache) (req : ListRolesRequest) (resp : ListRolesResponse),
        c.closed = false → c.readCache .role = true →
        c.listRoles req = .ok resp → resp.roles.length ≤ defaultChunkSize)
    ∧ (∀ limit : Int, limit ≤ 0 → listResourcesLimit limit = defaultChunkSize)
    ∧ (∀ limit : Int, 0 < limit → listResourcesLimit limit = limit.toNat)
    ∧ (∀ (τ : Type) (resources : List τ) (limit : Nat) (matchFn : τ → Bool)
        (cloneFn : τ → CacheResource) (pagKey : τ → String)
        (resp : ListResourcesResponse),
        buildListResourcesResponse resources limit matchFn cloneFn pagKey = .ok resp →
        resp.resources.length ≤ limit) := by
  refine ⟨?_, ?_, ?_, ?_, ?_⟩
  · intro limit
    exact ⟨adjustedPageSize_pos limit, adjustedPageSize_le limit⟩
  · intro c req resp hc hr hresp
    rw [listRoles_trusted c req hc hr] at hresp
    simp only [Except.ok.injEq] at hresp
    rw [← hresp]
    exact le_trans (scanPage_length_le _ _ _ _ _) (adjustedPageSize_le _)
  · intro limit h
    simp [listResourcesLimit, h]
  · intro limit h
    simp [listResourcesLimit]
    omega
  · intro τ resources limit matchFn cloneFn pagKey resp hresp
    simp only [buildListResourcesResponse, Except.ok.injEq] at hresp
    rw [← hresp]
    exact scanPage_length_le _ _ _ _ _

/-- Witness for C6 (amended): the clamp bounds at concrete limits, and the
page bound at a concrete trusted `ListRoles` call. -/
theorem c6_page_size_clamp_witness :
    (1 ≤ adjustedPageSize 5000 ∧ adjustedPageSize 5000 ≤ defaultChunkSize)
    ∧ ((ListRolesResponse.mk [⟨"admin"⟩] "dev").roles.length ≤ defaultChunkSize)
    ∧ (listResourcesLimit (-3) = defaultChunkSize)
    ∧ (listResourcesLimit 1001 = 1001) := by
  refine ⟨c6_page_size_clamp.1 5000, ?_, ?_, ?_⟩
  · exact c6_page_size_clamp.2.1 c1RolesCache
      { limit := 1, startKey := "", filter := none } _ rfl rfl
      (rfl :
        c1RolesCache.listRoles { limit := 1, startKey := "", filter := none }
          = .ok (ListRolesResponse.mk [⟨"admin"⟩] "dev"))
  · exact c6_page_size_clamp.2.2.1 (-3) (by decide)
  · exact (c6_page_size_clamp.2.2.2.1 1001 (by decide)).trans rfl

/-! ## Claim C7 -/

/-- The resource types with special-cased list wiring in the dispatcher. -/
def supportedListKinds : List Kind :=
  [.databaseServer, .databaseService, .appServer, .node,
   .windowsDesktopService, .kubeServer]

/-- C7: for every resource type without special-cased list wiring (including
`KindUserGroup`, `KindIdentityCenterAccount`,
`KindIdentityCenterAccountAssignment`, and any unknown kind), a cache-served
`ListResources` call (well-formed predicate expression) fails with
`NotImplemented` — never an empty successful result. -/
theorem c7_not_implemented (c : Cache) (req : ListResourcesRequest)
    (po : Option (CacheResource → Bool))
    (hc : c.closed = false) (hok : c.ok = true)
    (hcont : req.resourceType ∈ c.confirmedKinds)
    (hpe : parsePredExpr req.predicateExpression = .ok po)
    (hun : req.resourceType ∉ supportedListKinds) :
    c.ListResources req
      = .error (.notImplemented
          (req.resourceType.name ++ " not implemented at ListResources")) := by
  have hserve : c.ListResources req = c.listResources req := by
    simp [Cache.ListResources, hc, hok, hcont]
  rw [hserve]
  unfold Cache.listResources
  rw [hpe]
  rcases req with ⟨kind, limit, startKey, ls, pe⟩
  simp only at hun ⊢
  cases kind <;> simp_all [supportedListKinds, Kind.name]

/-- A ready cache confirming `user_group` watches. -/
def c7Cache : Cache := { baseCache with confirmedKinds := [.userGroup] }

/-- Witness for C7: a cache-served `ListResources` for `KindUserGroup`. -/
theorem c7_not_implemented_witness :
    c7Cache.ListResources
        { resourceType := .userGroup, limit := 10, startKey := "",
          labelsSearch := fun _ => true, predicateExpression := .empty }
      = .error (.notImplemented "user_group not implemented at ListResources") := by
  exact (c7_not_implemented c7Cache
    { resourceType := .userGroup, limit := 10, startKey := "",
      labelsSearch := fun _ => true, predicateExpression := .empty }
    none rfl rfl (by decide) rfl (by decide)).trans rfl

/-! ## Claim C8 -/

/-- C8: once the cache's `closed` flag is set, `ListResources` fails fast
with a "cache is closed" error — for every store contents and every backend
(the result does not depend on either, so nothing is read or called). -/
theorem c8_closed_fails_fast (c : Cache) (req : ListResourcesRequest)
    (hc : c.closed = true) :
    c.ListResources req = .error (.generic "cache is closed") := by
  simp [Cache.ListResources, hc]

/-- A closed cache (with a backend that would answer). -/
def c8Cache : Cache :=
  { baseCache with
    closed := true
    confirmedKinds := [.node]
    backend :=
      { trivialBackend with
        listResources := fun _ => .ok { resources := [.node ⟨"n"⟩], nextKey := "" } } }

/-- Witness for C8. -/
theorem c8_closed_fails_fast_witness :
    c8Cache.ListResources
        { resourceType := .node, limit := 1, startKey := "",
          labelsSearch := fun _ => true, predicateExpression := .empty }
      = .error (.generic "cache is closed") :=
  c8_closed_fails_fast c8Cache _ rfl

/-! ## Claim C9: delete-event header transforms

The `headerTransform` closures registered by the collection constructors in
`src/lib/cache/role.go`, `src/lib/cache/windows_desktop.go` and
`src/lib/cache/database.go` (the latter file also holds the app and
kubernetes collections), transcribed literally: each synthesizes a typed
tombstone from a bare `types.ResourceHeader` (kind/name/description). -/

/-- `*types.ResourceHeader` as delivered with a delete event. -/
structure ResourceHeader where
  kind : Kind
  name : String
  description : String
  deriving DecidableEq, Repr

/-- The kind/version/name/hostID content of a synthesized typed tombstone
(`hostID = ""` when the struct literal does not set a host ID). -/
structure Tombstone where
  kind : Kind
  version : String
  name : String
  hostID : String
  deriving DecidableEq, Repr

/-- `newRoleCollection`: `&types.RoleV6{Kind: KindRole, Version: V7, ...}`. -/
def roleHeaderTransform (hdr : ResourceHeader) : Tombstone :=
  { kind := .role, version := "v7", name := hdr.name, hostID := "" }

/-- `newWindowsDesktopServiceCollection`. -/
def windowsDesktopServiceHeaderTransform (hdr : ResourceHeader) : Tombstone :=
  { kind := .windowsDesktopService, version := "v3", name := hdr.name, hostID := "" }

/-- `newWindowsDesktopCollection`: recovers the host ID from the header's
description field. -/
def windowsDesktopHeaderTransform (hdr : ResourceHeader) : Tombstone :=
  { kind := .windowsDesktop, version := "v3", name := hdr.name,
    hostID := hdr.description }

/-- `newDatabaseCollection`. -/
def databaseHeaderTransform (hdr : ResourceHeader) : Tombstone :=
  { kind := .database, version := "v3", name := hdr.name, hostID := "" }

/-- `newDatabaseServerCollection`. -/
def databaseServerHeaderTransform (hdr : ResourceHeader) : Tombstone :=
  { kind := .databaseServer, version := "v3", name := hdr.name,
    hostID := hdr.description }

/-- `newDatabaseServiceCollection`: the struct literal in `src/` builds a
`&types.DatabaseServiceV1` whose header says `Kind: types.KindDatabase,
Version: types.V3`. -/
def databaseServiceHeaderTransform (hdr : ResourceHeader) : Tombstone :=
  { kind := .database, version := "v3", name := hdr.name, hostID := "" }

/-- `newAppCollection`. -/
def appHeaderTransform (hdr : ResourceHeader) : Tombstone :=
  { kind := .app, version := "v3", name := hdr.name, hostID := "" }

/-- `newAppServerCollection`. -/
def appServerHeaderTransform (hdr : ResourceHeader) : Tombstone :=
  { kind := .appServer, version := "v3", name := hdr.name,
    hostID := hdr.description }

/-- `newKubernetesServerCollection`. -/
def kubeServerHeaderTransform (hdr : ResourceHeader) : Tombstone :=
  { kind := .kubeServer, version := "v3", name := hdr.name,
    hostID := hdr.description }

/-- `newKubernetesClusterCollection`. -/
def kubeClusterHeaderTransform (hdr : ResourceHeader) : Tombstone :=
  { kind := .kubeCluster, version := "v3", name := hdr.name, hostID := "" }

/-- C9, evaluated at the failing input: the DatabaseService collection's
`headerTransform` synthesizes a tombstone whose kind is `KindDatabase`, not
the collection's resource kind `KindDatabaseService` (a copy-paste slip: the
`DatabaseServiceV1` literal carries `Kind: KindDatabase, Version: V3`);
every per-host transform does recover the host ID from the description, and
the other transforms carry their collection's kind, as claimed. -/
theorem c9_databaseservice_tombstone_kind :
    (databaseServiceHeaderTransform ⟨.databaseService, "svc1", "host-9"⟩
      = { kind := .database, version := "v3", name := "svc1", hostID := "" })
    ∧ Kind.database ≠ Kind.databaseService
    ∧ (∀ hdr : ResourceHeader,
        (windowsDesktopHeaderTransform hdr).hostID = hdr.description
        ∧ (databaseServerHeaderTransform hdr).hostID = hdr.description
        ∧ (appServerHeaderTransform hdr).hostID = hdr.description
        ∧ (kubeServerHeaderTransform hdr).hostID = hdr.description)
    ∧ (∀ hdr : ResourceHeader,
        (roleHeaderTransform hdr).kind = .role
        ∧ (windowsDesktopServiceHeaderTransform hdr).kind = .windowsDesktopService
        ∧ (windowsDesktopHeaderTransform hdr).kind = .windowsDesktop
        ∧ (databaseHeaderTransform hdr).kind = .database
        ∧ (databaseServerHeaderTransform hdr).kind = .databaseServer
        ∧ (appHeaderTransform hdr).kind = .app
        ∧ (appServerHeaderTransform hdr).kind = .appServer
        ∧ (kubeServerHeaderTransform hdr).kind = .kubeServer
        ∧ (kubeClusterHeaderTransform hdr).kind = .kubeCluster) := by
  refine ⟨rfl, by decide, ?_, ?_⟩
  · intro hdr
    exact ⟨rfl, rfl, rfl, rfl⟩
  · intro hdr
    exact ⟨rfl, rfl, rfl, rfl, rfl, rfl, rfl, rfl, rfl⟩

/-! ## Claim C10 -/

/-- Whether a stored `types.Role` value's concrete type is `*types.RoleV6`. -/
def isRoleV6 : Role → Bool
  | .v6 _ => true
  | .legacy _ => false

/-- `scanPage` ignores items that can never be emitted: pre-filtering the
sequence by any predicate implied by the emit condition changes nothing. -/
theorem scanPage_filter_superset {τ σ : Type} (keyOf : τ → String) (emit : τ → Bool)
    (clone : τ → σ) (p : τ → Bool) (hp : ∀ r, emit r = true → p r = true) :
    ∀ (n : Nat) (l : List τ),
      scanPage keyOf emit clone n (l.filter p) = scanPage keyOf emit clone n l := by
  intro n l
  induction l generalizing n with
  | nil => simp
  | cons r rest ih =>
    by_cases hpr : p r
    · rw [List.filter_cons_of_pos hpr]
      by_cases he : emit r
      · cases n with
        | zero => simp [scanPage, he]
        | succ m => simp [scanPage, he, ih]
      · simp [scanPage, he, ih]
    · have he : emit r = false := by
        cases hcon : emit r
        · rfl
        · exact absurd (hp r hcon) (by simp [hpr])
      rw [List.filter_cons_of_neg hpr]
      simp [scanPage, he, ih]

theorem fromKey_filter_comm {τ : Type} (keyOf : τ → String) (start : String)
    (p : τ → Bool) (l : List τ) :
    fromKey keyOf start (l.filter p) = (fromKey keyOf start l).filter p := by
  by_cases hs : start = ""
  · simp [hs, fromKey_empty]
  · rw [fromKey_ne keyOf hs, fromKey_ne keyOf hs, List.filter_filter,
      List.filter_filter]
    exact List.filter_congr (fun a _ => by rw [Bool.and_comm])

/-- The cache with its role store thinned to the `*RoleV6` values only. -/
def Cache.rolesRestrictedToV6 (c : Cache) : Cache :=
  { c with roles := ⟨c.roles.keyOf, c.roles.items.filter isRoleV6⟩ }

/-- C10: a cache-served `ListRoles` silently omits every stored role whose
concrete type is not `*types.RoleV6` — the response (page and `NextKey`) is
exactly what it would be if the store only held the `RoleV6` values —
whereas `GetRoles` returns a clone of every stored role regardless of
concrete type. -/
theorem c10_listroles_skips_nonv6 (c : Cache) (req : ListRolesRequest)
    (hc : c.closed = false) (hr : c.readCache .role = true) :
    c.listRoles req = c.rolesRestrictedToV6.listRoles req
    ∧ c.getRoles = .ok (c.roles.items.map Role.clone) := by
  constructor
  · have hr' : c.rolesRestrictedToV6.readCache .role = true := hr
    have hc' : c.rolesRestrictedToV6.closed = false := hc
    rw [listRoles_trusted c req hc hr, listRoles_trusted _ req hc' hr']
    have hkey : (c.rolesRestrictedToV6).roles.keyOf = c.roles.keyOf := rfl
    have hitems : (c.rolesRestrictedToV6).roles.items
        = c.roles.items.filter isRoleV6 := rfl
    rw [Store.resourcesFrom, Store.resourcesFrom, hkey, hitems,
      fromKey_filter_comm, scanPage_filter_superset _ _ _ isRoleV6
        (by intro r h; cases r with
            | v6 rv6 => rfl
            | legacy n => exact absurd h (by simp [roleEmit]))]
  · simp [Cache.getRoles, acquireReadGuard, hc, hr, Store.resourcesFrom, fromKey_empty]

/-- A trusted cache holding two `RoleV6` values and one other `types.Role`
implementation. -/
def c10Cache : Cache :=
  { baseCache with
    confirmedKinds := [.role]
    roles := ⟨Role.getName, [.v6 ⟨"admin"⟩, .legacy "aux-role", .v6 ⟨"dev"⟩]⟩ }

/-- Witness for C10: on the mixed store, `ListRoles` reports only the two
`RoleV6` values (identically to the thinned store) while `GetRoles` returns
all three stored roles. -/
theorem c10_listroles_skips_nonv6_witness :
    c10Cache.listRoles { limit := 10, startKey := "", filter := none }
      = c10Cache.rolesRestrictedToV6.listRoles
          { limit := 10, startKey := "", filter := none }
    ∧ c10Cache.getRoles
        = .ok [.v6 ⟨"admin"⟩, .legacy "aux-role", .v6 ⟨"dev"⟩] := by
  have h := c10_listroles_skips_nonv6 c10Cache
    { limit := 10, startKey := "", filter := none } rfl rfl
  exact ⟨h.1, h.2.trans rfl⟩

end TeleportCache
